import Mathlib

/-
Shallow embedding of the live-trading core of the Systematic_trader_v3
repository: the risk/position gate (backend/risk/manager.py), the order
executor (backend/execution/executor.py), the trade ledger
(backend/core/database.py) and the hot-plug symbol scheduler
(backend/main.py).  Money amounts and prices are modelled as rationals;
fallible Python code (a possible ZeroDivisionError) is modelled with
Except.  Effects of the executor (risk consultations, exchange order
attempts, backoff sleeps) are reified as an explicit trace so that
claims about "no order placed" or "retried N times" are statable.
-/

namespace Systrader

/-- Status of a transient order, from OrderStatus in execution/executor.py. -/
inductive OrderStatus
  | PENDING
  | FILLED
  | FAILED
deriving DecidableEq, Repr

/-- Signal types, from SignalType in strategies/base.py. -/
inductive SignalType
  | NONE
  | LONG
  | SHORT
  | CLOSE_LONG
  | CLOSE_SHORT
  | BUY
  | SELL
deriving DecidableEq, Repr

/-- A ledger row, from the Trade dataclass in core/database.py (the fields
the executor reads or writes; times are abstract ticks). -/
structure Trade where
  id : Option Nat := none
  symbol : String
  side : String
  entryPrice : ℚ
  quantity : ℚ
  entryTime : Option Nat := none
  exitPrice : ℚ := 0
  exitTime : Option Nat := none
  pnl : ℚ := 0
  strategy : String := ""
  status : String := "OPEN"
deriving DecidableEq, Repr

/-- The persistent trades table, rows in insertion (rowid) order. -/
abbrev Store := List Trade

/-- Database.get_open_trades(symbol): rows of the symbol with status OPEN,
in rowid order (core/database.py). -/
def get_open_trades (symbol : String) (store : Store) : List Trade :=
  store.filter fun t => t.symbol == symbol && t.status == "OPEN"

/-- The AUTOINCREMENT rowid the next insert receives. -/
def nextId (store : Store) : Nat :=
  store.foldr (fun t m => max (t.id.getD 0) m) 0 + 1

/-- Database.save_trade: inserts the row (entry_time defaulting to now) and
returns the new rowid (core/database.py). -/
def save_trade (store : Store) (t : Trade) (now : Nat) : Nat × Store :=
  let tid := nextId store
  (tid, store ++ [{ t with id := some tid, entryTime := some (t.entryTime.getD now) }])

/-- Database.update_trade as the executor calls it on close: sets
exit_price, exit_time, pnl and status = CLOSED on the row with the given
id (core/database.py, execution/executor.py). -/
def update_trade_close (store : Store) (tid : Nat) (exitPrice : ℚ) (exitTime : Nat)
    (pnl : ℚ) : Store :=
  store.map fun t =>
    if t.id = some tid then
      { t with exitPrice := exitPrice, exitTime := some exitTime, pnl := pnl,
               status := "CLOSED" }
    else t

/-- The dict PositionManager.get_position builds from the first open row. -/
structure PositionView where
  symbol : String
  quantity : ℚ
  entryPrice : ℚ
deriving DecidableEq, Repr

/-- PositionManager.get_position(symbol): the first OPEN row of the symbol,
or none (risk/manager.py). -/
def get_position (symbol : String) (store : Store) : Option PositionView :=
  match get_open_trades symbol store with
  | [] => none
  | t :: _ => some ⟨t.symbol, t.quantity, t.entryPrice⟩

/-- PositionManager.get_all_active_positions: the configured symbols that
currently hold an open position with positive quantity (risk/manager.py). -/
def get_all_active_positions (cfgSymbols : List String) (store : Store) : List String :=
  cfgSymbols.filter fun sym =>
    match get_position sym store with
    | some p => decide (0 < p.quantity)
    | none => false

/-- Mutable state of PositionManager (risk/manager.py). -/
structure PmState where
  maxPositionPercent : ℚ
  balance : ℚ := 0
  availableBalance : ℚ := 0
deriving DecidableEq, Repr

/-- Round-half-to-even to an integer, the rounding mode of Python round(). -/
def roundHalfEven (x : ℚ) : ℤ :=
  let f := x.floor
  let r := x - (f : ℚ)
  if r < 1 / 2 then f
  else if 1 / 2 < r then f + 1
  else if f % 2 = 0 then f else f + 1

/-- Python round(x, 6). -/
def pyRound6 (x : ℚ) : ℚ :=
  (roundHalfEven (x * 1000000) : ℚ) / 1000000

/-- PositionManager.calculate_position_size(price) (risk/manager.py):
note the Python "or": a zero available balance falls back to the total
balance. -/
def calculate_position_size (pm : PmState) (price : ℚ) : ℚ :=
  if price ≤ 0 then 0
  else
    let available := if pm.availableBalance = 0 then pm.balance else pm.availableBalance
    pyRound6 (available * (pm.maxPositionPercent / 100) / price)

/-- Mutable state of RiskManager plus its configured limits
(risk/manager.py). -/
structure RiskState where
  maxDailyLossPercent : ℚ
  maxDrawdownPercent : ℚ
  maxActiveTrades : Nat
  dailyPnl : ℚ := 0
  dailyStartBalance : ℚ := 0
  peakBalance : ℚ := 0
  currentDrawdown : ℚ := 0
deriving DecidableEq, Repr

/-- RiskManager.initialize(initial_balance): seeds day-start and peak
balance (risk/manager.py). -/
def risk_init (b : ℚ) (s : RiskState) : RiskState :=
  { s with dailyStartBalance := b, peakBalance := b }

/-- RiskManager.update_balance(current_balance): raises the peak if
exceeded, then recomputes the drawdown when the peak is positive
(risk/manager.py). -/
def risk_update_balance (current : ℚ) (s : RiskState) : RiskState :=
  let peak := if s.peakBalance < current then current else s.peakBalance
  let dd := if 0 < peak then (peak - current) / peak * 100 else s.currentDrawdown
  { s with peakBalance := peak, currentDrawdown := dd }

/-- The reason attached to a pre-trade decision; payloads carry the numbers
interpolated into the Python message strings. -/
inductive DenyReason
  | dailyLoss (pct : ℚ)
  | drawdown (pct : ℚ)
  | concurrency (limit : Nat)
  | ok
deriving DecidableEq, Repr

/-- The two checks of RiskManager.check_pre_trade that follow the
daily-loss block: drawdown, then (for BUY) the concurrency cap
(risk/manager.py lines 74-85). -/
def check_after_daily (s : RiskState) (cfgSymbols : List String) (store : Store)
    (symbol side : String) : Bool × DenyReason :=
  if s.maxDrawdownPercent ≤ s.currentDrawdown then
    (false, DenyReason.drawdown s.currentDrawdown)
  else if side.toUpper = "BUY" then
    let active := get_all_active_positions cfgSymbols store
    if symbol ∉ active ∧ s.maxActiveTrades ≤ active.length then
      (false, DenyReason.concurrency s.maxActiveTrades)
    else (true, DenyReason.ok)
  else (true, DenyReason.ok)

/-- RiskManager.check_pre_trade (risk/manager.py lines 68-85).  The
daily-loss percentage is only computed when the daily pnl is negative, and
that division is unguarded: a zero day-start balance there is a
ZeroDivisionError, modelled as Except.error. -/
def check_pre_trade (s : RiskState) (cfgSymbols : List String) (store : Store)
    (symbol side : String) (quantity price : ℚ) : Except Unit (Bool × DenyReason) :=
  if s.dailyPnl < 0 then
    if s.dailyStartBalance = 0 then Except.error ()
    else
      let dailyLoss := |s.dailyPnl| / s.dailyStartBalance * 100
      if s.maxDailyLossPercent ≤ dailyLoss then
        Except.ok (false, DenyReason.dailyLoss dailyLoss)
      else Except.ok (check_after_daily s cfgSymbols store symbol side)
  else Except.ok (check_after_daily s cfgSymbols store symbol side)

/-- Derived risk status, from the RiskStatus dataclass (risk/manager.py). -/
structure RiskStatus where
  dailyPnl : ℚ
  dailyLossPercent : ℚ
  currentDrawdown : ℚ
  riskLevel : String
  canTrade : Bool
deriving DecidableEq, Repr

/-- RiskManager.get_risk_status (risk/manager.py lines 93-115): here the
daily-loss division is guarded, returning 0 on a non-positive day-start
balance. -/
def get_risk_status (s : RiskState) : RiskStatus :=
  let dailyLoss := if 0 < s.dailyStartBalance then |s.dailyPnl| / s.dailyStartBalance * 100 else 0
  if s.maxDailyLossPercent * (8 / 10) ≤ dailyLoss ∨
      s.maxDrawdownPercent * (8 / 10) ≤ s.currentDrawdown then
    ⟨s.dailyPnl, dailyLoss, s.currentDrawdown, "high", false⟩
  else
    ⟨s.dailyPnl, dailyLoss, s.currentDrawdown, "low", true⟩

/-- The fields the executor reads from a successful ccxt create_order
response dict (execution/executor.py lines 112-121); absent keys are
none. -/
structure Fill where
  orderId : Option String := none
  filled : Option ℚ := none
  average : Option ℚ := none
deriving DecidableEq, Repr

/-- A transient order, from the Order dataclass in execution/executor.py. -/
structure Order where
  orderId : Option String := none
  symbol : String := ""
  side : String := ""
  quantity : ℚ := 0
  status : OrderStatus := OrderStatus.PENDING
  filledQuantity : ℚ := 0
  avgPrice : ℚ := 0
  errorMessage : String := ""
deriving DecidableEq, Repr

/-- Observable actions of the executor, reified as a trace: a pre-trade
consultation of the risk gate, one exchange order-placement attempt, or a
retry-backoff sleep of the given seconds. -/
inductive ExecEffect
  | riskCheck (symbol side : String) (quantity price : ℚ)
  | attemptOrder (symbol side : String) (quantity : ℚ) (attempt : Nat)
  | sleepBackoff (seconds : ℚ)
deriving DecidableEq, Repr

/-- Behaviour of the exchange: the outcome of the n-th create_order
attempt — a fill dict, or a raised exception carrying its message. -/
abbrev Exchange := Nat → Except String Fill

/-- Python str() of result.get(id): an absent id prints as the string
None. -/
def strOfOptId : Option String → String
  | some s => s
  | none => "None"

/-- The retry loop body of OrderExecutor._place_order
(execution/executor.py lines 110-131): attempt is the current index, fuel
the attempts remaining (maxRetries - attempt at every reachable call),
errMsg the last stored error_message. -/
def place_order_loop (exch : Exchange) (maxRetries : Nat) (symbol side : String)
    (quantity : ℚ) : Nat → Nat → String → Order × List ExecEffect
  | _, 0, errMsg =>
    ({ symbol := symbol, side := side, quantity := quantity,
       status := OrderStatus.FAILED, errorMessage := errMsg }, [])
  | attempt, fuel + 1, _ =>
    match exch attempt with
    | Except.ok f =>
      ({ orderId := some (strOfOptId f.orderId), symbol := symbol, side := side,
         quantity := quantity, status := OrderStatus.FILLED,
         filledQuantity := f.filled.getD quantity, avgPrice := f.average.getD 0 },
       [ExecEffect.attemptOrder symbol side quantity attempt])
    | Except.error e =>
      if attempt < maxRetries - 1 then
        let rest := place_order_loop exch maxRetries symbol side quantity (attempt + 1) fuel e
        (rest.1,
         ExecEffect.attemptOrder symbol side quantity attempt ::
           ExecEffect.sleepBackoff (1 * ((attempt : ℚ) + 1)) :: rest.2)
      else
        ({ symbol := symbol, side := side, quantity := quantity,
           status := OrderStatus.FAILED, errorMessage := e },
         [ExecEffect.attemptOrder symbol side quantity attempt])

/-- OrderExecutor._place_order (execution/executor.py lines 106-131). -/
def place_order (exch : Exchange) (maxRetries : Nat) (symbol side : String)
    (quantity : ℚ) : Order × List ExecEffect :=
  place_order_loop exch maxRetries symbol side quantity 0 maxRetries ""

/-- A Signal, from the dataclass in strategies/base.py (the fields the
executor reads). -/
structure Signal where
  strategyName : String
  signalType : SignalType
  symbol : String
  price : ℚ
  quantity : ℚ := 0
deriving DecidableEq, Repr

/-- Ambient state the executor reads: risk-manager state, position-manager
state, the configured symbol list, the retry budget and the clock. -/
structure ExecCtx where
  risk : RiskState
  pm : PmState
  cfgSymbols : List String
  maxRetries : Nat := 3
  now : Nat := 0

/-- Result of execute_signal: the returned Optional Trade (error when a
ZeroDivisionError propagates out of the risk gate), the trade store after
the call, and the effect trace. -/
structure ExecResult where
  result : Except Unit (Option Trade)
  store : Store
  effects : List ExecEffect
deriving Repr

/-- OrderExecutor._spot_buy (execution/executor.py lines 41-65). -/
def spot_buy (ctx : ExecCtx) (exch : Exchange) (store : Store) (signal : Signal) :
    ExecResult :=
  let quantity :=
    if 0 < signal.quantity then signal.quantity
    else calculate_position_size ctx.pm signal.price
  let rc := ExecEffect.riskCheck signal.symbol "BUY" quantity signal.price
  match check_pre_trade ctx.risk ctx.cfgSymbols store signal.symbol "BUY" quantity
      signal.price with
  | Except.error _ => ⟨Except.error (), store, [rc]⟩
  | Except.ok (false, _) => ⟨Except.ok none, store, [rc]⟩
  | Except.ok (true, _) =>
    let po := place_order exch ctx.maxRetries signal.symbol "BUY" quantity
    if po.1.status = OrderStatus.FILLED then
      let t : Trade := { symbol := signal.symbol, side := "BUY",
                         entryPrice := po.1.avgPrice, quantity := po.1.filledQuantity,
                         strategy := signal.strategyName, status := "OPEN" }
      let saved := save_trade store t ctx.now
      ⟨Except.ok (some { t with id := some saved.1 }), saved.2, rc :: po.2⟩
    else ⟨Except.ok none, store, rc :: po.2⟩

/-- Quantity sold by _spot_sell: the signal's explicit quantity when
positive, else the full position (execution/executor.py line 73). -/
def sellQty (signal : Signal) (pos : PositionView) : ℚ :=
  if 0 < signal.quantity then signal.quantity else pos.quantity

/-- OrderExecutor._spot_sell (execution/executor.py lines 67-104). -/
def spot_sell (ctx : ExecCtx) (exch : Exchange) (store : Store) (signal : Signal) :
    ExecResult :=
  match get_position signal.symbol store with
  | none => ⟨Except.ok none, store, []⟩
  | some pos =>
    let quantity := sellQty signal pos
    if quantity ≤ 0 then ⟨Except.ok none, store, []⟩
    else
      let po := place_order exch ctx.maxRetries signal.symbol "SELL" quantity
      if po.1.status = OrderStatus.FILLED then
        match get_open_trades signal.symbol store with
        | t :: _ =>
          let pnl := (po.1.avgPrice - t.entryPrice) * min quantity t.quantity
          let storeB := update_trade_close store (t.id.getD 0) po.1.avgPrice ctx.now pnl
          ⟨Except.ok (some { symbol := signal.symbol, side := "SELL",
                             entryPrice := t.entryPrice, quantity := quantity,
                             exitPrice := po.1.avgPrice, pnl := pnl,
                             status := "CLOSED" }),
           storeB, po.2⟩
        | [] =>
          ⟨Except.ok (some { symbol := signal.symbol, side := "SELL",
                             entryPrice := 0, quantity := quantity,
                             exitPrice := po.1.avgPrice, pnl := 0,
                             status := "CLOSED" }),
           store, po.2⟩
      else ⟨Except.ok none, store, po.2⟩

/-- OrderExecutor.execute_signal (execution/executor.py lines 33-39): only
BUY and SELL are acted on; every other signal type returns None at once. -/
def execute_signal (ctx : ExecCtx) (exch : Exchange) (store : Store)
    (signal : Signal) : ExecResult :=
  match signal.signalType with
  | SignalType.BUY => spot_buy ctx exch store signal
  | SignalType.SELL => spot_sell ctx exch store signal
  | _ => ⟨Except.ok none, store, []⟩

/-- Number of exchange order attempts in a trace. -/
def attemptsCount (effs : List ExecEffect) : Nat :=
  (effs.filter fun e =>
    match e with
    | ExecEffect.attemptOrder _ _ _ _ => true
    | _ => false).length

/-- The backoff sleeps of a trace, in order. -/
def sleepTrace (effs : List ExecEffect) : List ℚ :=
  effs.filterMap fun e =>
    match e with
    | ExecEffect.sleepBackoff s => some s
    | _ => none

/-- A hot-plug command event, from EventType.ADD_SYMBOL and
EventType.REMOVE_SYMBOL (core/events.py, main.py): the payload may lack a
symbol. -/
inductive HotplugEvent
  | addSymbol (symbol : Option String)
  | removeSymbol (symbol : Option String)
deriving DecidableEq, Repr

/-- TradingEngine._handle_add_symbol (main.py lines 85-105), projected to
the keys of the active-task map: a falsy (missing or empty) symbol or an
already-active symbol is a no-op; otherwise the task is registered
provided the running TaskGroup reference tg is set. -/
def handle_add_symbol (tg : Bool) (active : List String) :
    Option String → List String
  | none => active
  | some s =>
    if s = "" then active
    else if s ∈ active then active
    else if tg then active ++ [s] else active

/-- TradingEngine._handle_remove_symbol (main.py lines 107-127), projected
to the keys of the active-task map: a falsy symbol or an inactive symbol
is a no-op; otherwise the entry is popped. -/
def handle_remove_symbol (active : List String) : Option String → List String
  | none => active
  | some s =>
    if s = "" then active
    else if s ∈ active then active.erase s else active

/-- One engine step on the active-task key set. -/
def engine_apply (tg : Bool) (active : List String) : HotplugEvent → List String
  | HotplugEvent.addSymbol s => handle_add_symbol tg active s
  | HotplugEvent.removeSymbol s => handle_remove_symbol active s

/-- The claim's replay model: a plain set with idempotent add and no-op
remove-if-absent (a missing symbol leaves the set unchanged). -/
def spec_apply (s : Finset String) : HotplugEvent → Finset String
  | HotplugEvent.addSymbol (some x) => insert x s
  | HotplugEvent.addSymbol none => s
  | HotplugEvent.removeSymbol (some x) => s.erase x
  | HotplugEvent.removeSymbol none => s

/-- The daily-loss percentage as the specification defines it: the loss
relative to the day-start balance, zero when the daily pnl is not a loss. -/
def dailyLossPercentSpec (s : RiskState) : ℚ :=
  if s.dailyPnl < 0 then |s.dailyPnl| / s.dailyStartBalance * 100 else 0

/-- First failing check of an ordered list of (failed?, reason) checks;
allowed with reason ok if none fails. -/
def firstFailing : List (Bool × DenyReason) → Bool × DenyReason
  | [] => (true, DenyReason.ok)
  | (cond, r) :: rest => if cond then (false, r) else firstFailing rest

/-- The pre-trade checks in the priority order the specification states:
daily loss at its cap, drawdown at its cap, then (BUY only) a new symbol
while the count of symbols holding an open position already equals the
concurrency limit. -/
def specPreTradeChecks (s : RiskState) (active : List String) (symbol side : String) :
    List (Bool × DenyReason) :=
  [ (decide (s.maxDailyLossPercent ≤ dailyLossPercentSpec s),
      DenyReason.dailyLoss (dailyLossPercentSpec s)),
    (decide (s.maxDrawdownPercent ≤ s.currentDrawdown),
      DenyReason.drawdown s.currentDrawdown),
    (decide (side.toUpper = "BUY") && !(decide (symbol ∈ active)) &&
        decide (active.length = s.maxActiveTrades),
      DenyReason.concurrency s.maxActiveTrades) ]

/-- The specification's reading of check_pre_trade: return the first
failing check of the priority list, else allowed. -/
def spec_check_pre_trade (s : RiskState) (active : List String) (symbol side : String) :
    Bool × DenyReason :=
  firstFailing (specPreTradeChecks s active symbol side)

/-- The symbol an event carries, if any. -/
def eventSymbol : HotplugEvent → Option String
  | HotplugEvent.addSymbol s => s
  | HotplugEvent.removeSymbol s => s

/-- A risk state with the default configured limits and untouched mutable
state, used as a concrete evaluation point. -/
def rsDefault : RiskState :=
  { maxDailyLossPercent := 5, maxDrawdownPercent := 15, maxActiveTrades := 3 }

/-- The state the unguarded division in check_pre_trade faults on: a
negative daily pnl with a zero day-start balance. -/
def rsDivZero : RiskState :=
  { rsDefault with dailyPnl := -1, dailyStartBalance := 0 }

/-- A position-manager state whose available balance is zero while the
total balance is not. -/
def pmZeroAvail : PmState :=
  { maxPositionPercent := 10, balance := 1000, availableBalance := 0 }

/-- An exchange on which every create_order attempt raises. -/
def exchAlwaysErr : Exchange := fun _ => Except.error "timeout"

/-- An exchange that rejects every attempt with a business-logic error
message. -/
def exchReject : Exchange := fun _ => Except.error "insufficient funds"

/-- An exchange that fills at price 110 on every attempt. -/
def exchFill110 : Exchange :=
  fun _ => Except.ok { orderId := some "9", filled := none, average := some 110 }

/-- An open BTCUSDT ledger row: quantity 2 bought at 100. -/
def trOpen : Trade :=
  { id := some 1, symbol := "BTCUSDT", side := "BUY", entryPrice := 100,
    quantity := 2, status := "OPEN" }

/-- A concrete executor context over the default risk limits. -/
def ctxDefault : ExecCtx :=
  { risk := rsDefault, pm := pmZeroAvail, cfgSymbols := ["BTCUSDT"],
    maxRetries := 3, now := 7 }

/-- A SELL signal for BTCUSDT with no explicit quantity. -/
def sigSellBtc : Signal :=
  { strategyName := "s", signalType := SignalType.SELL, symbol := "BTCUSDT",
    price := 110 }

/-- C5: across any sequence of update_balance calls the peak balance never
decreases; the recomputed drawdown equals (peak - current)/peak * 100 and
is nonnegative, and nonnegativity of the drawdown is preserved by every
update; after initialize(1000) and updates 1000, 1200, 900 the peak is
1200 and the drawdown 25. -/
theorem C5_peak_drawdown :
    (∀ (s : RiskState) (current : ℚ),
        s.peakBalance ≤ (risk_update_balance current s).peakBalance) ∧
    (∀ (s : RiskState) (current : ℚ),
        0 < (risk_update_balance current s).peakBalance →
          (risk_update_balance current s).currentDrawdown =
            ((risk_update_balance current s).peakBalance - current) /
              (risk_update_balance current s).peakBalance * 100 ∧
          0 ≤ (risk_update_balance current s).currentDrawdown) ∧
    (∀ (s : RiskState) (current : ℚ), 0 ≤ s.currentDrawdown →
        0 ≤ (risk_update_balance current s).currentDrawdown) ∧
    (∀ s : RiskState,
        (risk_update_balance 900 (risk_update_balance 1200 (risk_update_balance 1000
          (risk_init 1000 s)))).peakBalance = 1200 ∧
        (risk_update_balance 900 (risk_update_balance 1200 (risk_update_balance 1000
          (risk_init 1000 s)))).currentDrawdown = 25) := by
  have hcur : ∀ (s : RiskState) (current : ℚ),
      current ≤ (if s.peakBalance < current then current else s.peakBalance) := by
    intro s current
    split
    · exact le_refl current
    · exact le_of_not_lt (by assumption)
  have hdd : ∀ (P current : ℚ), 0 < P → current ≤ P → 0 ≤ (P - current) / P * 100 := by
    intro P current hP hle
    have h1 : 0 ≤ (P - current) / P := div_nonneg (by linarith) (le_of_lt hP)
    linarith
  refine ⟨?_, ?_, ?_, ?_⟩
  · intro s current
    simp only [risk_update_balance]
    split
    · exact le_of_lt (by assumption)
    · exact le_refl _
  · intro s current h
    simp only [risk_update_balance] at h ⊢
    rw [if_pos h]
    exact ⟨rfl, hdd _ current h (hcur s current)⟩
  · intro s current h
    simp only [risk_update_balance]
    by_cases hp : 0 < (if s.peakBalance < current then current else s.peakBalance)
    · rw [if_pos hp]
      exact hdd _ current hp (hcur s current)
    · rw [if_neg hp]
      exact h
  · intro s
    simp only [risk_update_balance, risk_init]
    norm_num

/-- C5 witness: the theorem applied at concrete inputs. -/
theorem C5_peak_drawdown_witness :
    (risk_update_balance 900 (risk_update_balance 1200 (risk_update_balance 1000
      (risk_init 1000 rsDefault)))).peakBalance = 1200 ∧
    0 ≤ (risk_update_balance 900 rsDefault).currentDrawdown := by
  refine ⟨(C5_peak_drawdown.2.2.2 rsDefault).1, ?_⟩
  exact C5_peak_drawdown.2.2.1 rsDefault 900 (by norm_num [rsDefault])

/-- C10: a signal whose type is neither BUY nor SELL is returned as None
with the trade store untouched and an empty effect trace: no risk-gate
consultation and no order attempt. -/
theorem C10_other_signal_noop (ctx : ExecCtx) (exch : Exchange) (store : Store)
    (signal : Signal) (h1 : signal.signalType ≠ SignalType.BUY)
    (h2 : signal.signalType ≠ SignalType.SELL) :
    execute_signal ctx exch store signal = ⟨Except.ok none, store, []⟩ := by
  cases hs : signal.signalType <;> simp_all [execute_signal]

/-- C10 witness: a NONE-typed signal at concrete inputs. -/
theorem C10_other_signal_noop_witness :
    execute_signal ctxDefault exchFill110 [trOpen]
        { sigSellBtc with signalType := SignalType.NONE } =
      ⟨Except.ok none, [trOpen], []⟩ :=
  C10_other_signal_noop ctxDefault exchFill110 [trOpen] _ (by decide) (by decide)

/-- Rat.floor fixes the integers. -/
theorem ratFloor_intCast (n : ℤ) : ((n : ℚ)).floor = n := by
  rw [Rat.floor_def']
  simp

/-- Half-even rounding fixes the integers. -/
theorem roundHalfEven_intCast (n : ℤ) : roundHalfEven (n : ℚ) = n := by
  simp only [roundHalfEven, ratFloor_intCast, sub_self]
  norm_num

/-- Python round(x, 6) fixes the integers. -/
theorem pyRound6_intCast (n : ℤ) : pyRound6 (n : ℚ) = (n : ℚ) := by
  have h : ((n : ℚ)) * 1000000 = ((n * 1000000 : ℤ) : ℚ) := by push_cast; ring
  simp only [pyRound6, h, roundHalfEven_intCast]
  push_cast
  field_simp

/-- C7 counterexample: with a zero available balance and total balance
1000, calculate_position_size(10) returns 10 — the size the total balance
yields — not the 0 the claim's available-balance formula yields. -/
theorem C7_counterexample :
    calculate_position_size pmZeroAvail 10 ≠
      pyRound6 (pmZeroAvail.availableBalance * (pmZeroAvail.maxPositionPercent / 100) / 10) := by
  have e1 : ¬ ((10 : ℚ) ≤ 0) := by norm_num
  have h1 : calculate_position_size pmZeroAvail 10 = 10 := by
    simp only [calculate_position_size, pmZeroAvail, if_neg e1, eq_self_iff_true, if_true]
    have h : (1000 : ℚ) * ((10 : ℚ) / 100) / 10 = ((10 : ℤ) : ℚ) := by norm_num
    rw [h, pyRound6_intCast]
    norm_num
  have h2 : pyRound6 (pmZeroAvail.availableBalance * (pmZeroAvail.maxPositionPercent / 100) / 10) = 0 := by
    simp only [pmZeroAvail]
    have h : (0 : ℚ) * ((10 : ℚ) / 100) / 10 = ((0 : ℤ) : ℚ) := by norm_num
    rw [h, pyRound6_intCast]
    norm_num
  rw [h1, h2]
  norm_num

/-- C7 amended: for every positive price the quantity is the balance times
the configured max position percent divided by the price, rounded to six
decimals — computed from the available balance when that is nonzero, and
falling back to the total balance when the available balance is zero. -/
theorem C7_position_size (pm : PmState) (price : ℚ) (hp : 0 < price) :
    (pm.availableBalance ≠ 0 →
        calculate_position_size pm price =
          pyRound6 (pm.availableBalance * (pm.maxPositionPercent / 100) / price)) ∧
    (pm.availableBalance = 0 →
        calculate_position_size pm price =
          pyRound6 (pm.balance * (pm.maxPositionPercent / 100) / price)) := by
  constructor
  · intro ha
    simp only [calculate_position_size, if_neg (not_le.mpr hp), if_neg ha]
  · intro ha
    simp only [calculate_position_size, if_neg (not_le.mpr hp), if_pos ha]

/-- C7 witness: the amended theorem applied at a nonzero available balance
and at the zero-available fallback. -/
theorem C7_position_size_witness :
    calculate_position_size { maxPositionPercent := 10, balance := 0, availableBalance := 500 } 10 =
      pyRound6 ((500 : ℚ) * (10 / 100) / 10) ∧
    calculate_position_size pmZeroAvail 10 = pyRound6 ((1000 : ℚ) * (10 / 100) / 10) := by
  constructor
  · exact (C7_position_size
      { maxPositionPercent := 10, balance := 0, availableBalance := 500 } 10
      (by norm_num)).1 (by norm_num)
  · exact (C7_position_size pmZeroAvail 10 (by norm_num)).2 (by norm_num [pmZeroAvail])

/-- C6 counterexample: check_pre_trade raises a ZeroDivisionError (the
error outcome) when the daily pnl is negative and the day-start balance is
zero — the daily-loss percentage there is not guarded. -/
theorem C6_counterexample :
    check_pre_trade rsDivZero [] [] "BTCUSDT" "BUY" 1 100 = Except.error () := by
  rfl

/-- C6 amended: get_risk_status guards its daily-loss division, returning
0 percent whenever the day-start balance is not positive; check_pre_trade
never faults when the daily pnl is nonnegative (the only states the
program produces, since the daily pnl is never mutated from 0), and a
fault can only arise from a negative daily pnl with a zero day-start
balance. -/
theorem C6_division_guards :
    (∀ s : RiskState, s.dailyStartBalance ≤ 0 →
        (get_risk_status s).dailyLossPercent = 0) ∧
    (∀ (s : RiskState) (cfg : List String) (store : Store) (symbol side : String)
        (q p : ℚ), 0 ≤ s.dailyPnl →
        ∃ r, check_pre_trade s cfg store symbol side q p = Except.ok r) ∧
    (∀ (s : RiskState) (cfg : List String) (store : Store) (symbol side : String)
        (q p : ℚ), check_pre_trade s cfg store symbol side q p = Except.error () →
        s.dailyPnl < 0 ∧ s.dailyStartBalance = 0) := by
  refine ⟨?_, ?_, ?_⟩
  · intro s h
    simp only [get_risk_status, if_neg (not_lt.mpr h)]
    split <;> rfl
  · intro s cfg store symbol side q p h
    simp only [check_pre_trade, if_neg (not_lt.mpr h)]
    exact ⟨_, rfl⟩
  · intro s cfg store symbol side q p h
    simp only [check_pre_trade] at h
    by_cases hp : s.dailyPnl < 0
    · rw [if_pos hp] at h
      by_cases hz : s.dailyStartBalance = 0
      · exact ⟨hp, hz⟩
      · rw [if_neg hz] at h
        split at h <;> simp_all
    · rw [if_neg hp] at h
      simp_all

/-- C6 witness: the amended theorem applied at concrete states. -/
theorem C6_division_guards_witness :
    (get_risk_status { rsDefault with dailyStartBalance := 0 }).dailyLossPercent = 0 ∧
    ∃ r, check_pre_trade rsDefault [] [] "BTCUSDT" "BUY" 1 100 = Except.ok r := by
  constructor
  · exact C6_division_guards.1 { rsDefault with dailyStartBalance := 0 } (by norm_num)
  · exact C6_division_guards.2.1 rsDefault [] [] "BTCUSDT" "BUY" 1 100 (by norm_num [rsDefault])

/-- One hot-plug event on a running engine (tg set) simulates the claim's
set replay, preserving distinctness of the active-task keys. -/
theorem engine_apply_sim (active : List String) (hnd : active.Nodup) (e : HotplugEvent)
    (he : ∃ x, eventSymbol e = some x ∧ x ≠ "") :
    (engine_apply true active e).Nodup ∧
    (engine_apply true active e).toFinset = spec_apply active.toFinset e := by
  obtain ⟨x, hx, hne⟩ := he
  cases e with
  | addSymbol s =>
    simp only [eventSymbol] at hx
    subst hx
    simp only [engine_apply, handle_add_symbol, spec_apply, if_neg hne]
    by_cases hmem : x ∈ active
    · rw [if_pos hmem]
      exact ⟨hnd, by rw [Finset.insert_eq_self.mpr (List.mem_toFinset.mpr hmem)]⟩
    · rw [if_neg hmem]
      simp only [if_true]
      constructor
      · simp [List.nodup_append, hnd, hmem]
      · ext y
        simp only [List.toFinset_append, Finset.mem_union, List.mem_toFinset,
          Finset.mem_insert, List.mem_singleton]
        tauto
  | removeSymbol s =>
    simp only [eventSymbol] at hx
    subst hx
    simp only [engine_apply, handle_remove_symbol, spec_apply, if_neg hne]
    by_cases hmem : x ∈ active
    · rw [if_pos hmem]
      refine ⟨hnd.erase x, ?_⟩
      ext y
      simp only [List.mem_toFinset, Finset.mem_erase, hnd.mem_erase_iff]
    · rw [if_neg hmem]
      refine ⟨hnd, ?_⟩
      rw [Finset.erase_eq_self.mpr (fun hy => hmem (List.mem_toFinset.mp hy))]

/-- Folding hot-plug events over a running engine simulates the claim's
set replay from any distinct starting key list. -/
theorem engine_replay_sim (evs : List HotplugEvent) :
    ∀ active : List String, active.Nodup →
      (∀ e ∈ evs, ∃ x, eventSymbol e = some x ∧ x ≠ "") →
      (evs.foldl (engine_apply true) active).Nodup ∧
      (evs.foldl (engine_apply true) active).toFinset =
        evs.foldl spec_apply active.toFinset := by
  induction evs with
  | nil => intro active hnd _; exact ⟨hnd, rfl⟩
  | cons e evs ih =>
    intro active hnd hall
    have he := hall e (List.mem_cons_self e evs)
    have hstep := engine_apply_sim active hnd e he
    have hrest := ih (engine_apply true active e) hstep.1
      (fun x hx => hall x (List.mem_cons_of_mem e hx))
    refine ⟨hrest.1, ?_⟩
    simp only [List.foldl_cons, hrest.2, hstep.2]

/-- C4: for any sequence of ADD_SYMBOL/REMOVE_SYMBOL events carrying a
nonempty symbol, applied to a running engine, the set of active-task keys
equals replaying the events over a plain set with idempotent add and
no-op remove-if-absent. -/
theorem C4_hotplug_replay (evs : List HotplugEvent) (active : List String)
    (hnd : active.Nodup)
    (hall : ∀ e ∈ evs, ∃ x, eventSymbol e = some x ∧ x ≠ "") :
    (evs.foldl (engine_apply true) active).toFinset =
      evs.foldl spec_apply active.toFinset :=
  (engine_replay_sim evs active hnd hall).2

/-- C4 witness: a concrete event sequence with a duplicate add and a
remove of an absent symbol, replayed from the empty active set. -/
theorem C4_hotplug_replay_witness :
    ([HotplugEvent.addSymbol (some "BTCUSDT"), HotplugEvent.addSymbol (some "BTCUSDT"),
      HotplugEvent.removeSymbol (some "ETHUSDT"), HotplugEvent.addSymbol (some "ETHUSDT"),
      HotplugEvent.removeSymbol (some "BTCUSDT")].foldl (engine_apply true) []).toFinset =
    [HotplugEvent.addSymbol (some "BTCUSDT"), HotplugEvent.addSymbol (some "BTCUSDT"),
      HotplugEvent.removeSymbol (some "ETHUSDT"), HotplugEvent.addSymbol (some "ETHUSDT"),
      HotplugEvent.removeSymbol (some "BTCUSDT")].foldl spec_apply
      (List.toFinset []) := by
  apply C4_hotplug_replay
  · exact List.nodup_nil
  · intro e he
    fin_cases he <;> exact ⟨_, rfl, by decide⟩

/-- Counting attempts past an attemptOrder effect. -/
theorem attemptsCount_cons_attempt (sy si : String) (q : ℚ) (a : Nat)
    (l : List ExecEffect) :
    attemptsCount (ExecEffect.attemptOrder sy si q a :: l) = attemptsCount l + 1 := by
  simp [attemptsCount, List.filter]

/-- Counting attempts past a sleepBackoff effect. -/
theorem attemptsCount_cons_sleep (s : ℚ) (l : List ExecEffect) :
    attemptsCount (ExecEffect.sleepBackoff s :: l) = attemptsCount l := by
  simp [attemptsCount, List.filter]

/-- Counting attempts past a riskCheck effect. -/
theorem attemptsCount_cons_risk (sy si : String) (q p : ℚ) (l : List ExecEffect) :
    attemptsCount (ExecEffect.riskCheck sy si q p :: l) = attemptsCount l := by
  simp [attemptsCount, List.filter]

/-- Sleep trace past an attemptOrder effect. -/
theorem sleepTrace_cons_attempt (sy si : String) (q : ℚ) (a : Nat)
    (l : List ExecEffect) :
    sleepTrace (ExecEffect.attemptOrder sy si q a :: l) = sleepTrace l := by
  simp [sleepTrace, List.filterMap]

/-- Sleep trace past a sleepBackoff effect. -/
theorem sleepTrace_cons_sleep (s : ℚ) (l : List ExecEffect) :
    sleepTrace (ExecEffect.sleepBackoff s :: l) = s :: sleepTrace l := by
  simp [sleepTrace, List.filterMap]

/-- When every exchange attempt raises, the retry loop starting at any
attempt index with the matching remaining fuel performs exactly fuel
attempts, sleeps the linear backoffs between consecutive attempts, and
ends FAILED. -/
theorem place_loop_all_fail (exch : Exchange) (maxRetries : Nat) (symbol side : String)
    (quantity : ℚ) (h : ∀ n f, exch n ≠ Except.ok f) :
    ∀ (fuel attempt : Nat) (errMsg : String), attempt + fuel = maxRetries →
      (place_order_loop exch maxRetries symbol side quantity attempt fuel errMsg).1.status =
        OrderStatus.FAILED ∧
      attemptsCount
        (place_order_loop exch maxRetries symbol side quantity attempt fuel errMsg).2 = fuel ∧
      sleepTrace
        (place_order_loop exch maxRetries symbol side quantity attempt fuel errMsg).2 =
        (List.range (fuel - 1)).map (fun i : Nat => 1 * ((attempt : ℚ) + (i : ℚ) + 1)) := by
  intro fuel
  induction fuel with
  | zero =>
    intro attempt errMsg _
    exact ⟨rfl, rfl, rfl⟩
  | succ k ih =>
    intro attempt errMsg hsum
    cases hx : exch attempt with
    | ok f => exact absurd hx (h attempt f)
    | error e =>
      simp only [place_order_loop, hx]
      by_cases hlt : attempt < maxRetries - 1
      · rw [if_pos hlt]
        have hk : 0 < k := by omega
        have ih2 := ih (attempt + 1) e (by omega)
        refine ⟨ih2.1, ?_, ?_⟩
        · rw [attemptsCount_cons_attempt, attemptsCount_cons_sleep, ih2.2.1]
        · rw [sleepTrace_cons_attempt, sleepTrace_cons_sleep, ih2.2.2]
          obtain ⟨m, hm⟩ := Nat.exists_eq_add_of_lt hk
          have hkm : k = m + 1 := by omega
          subst hkm
          simp only [Nat.add_sub_cancel, List.range_succ_eq_map, List.map_cons,
            List.map_map]
          congr 1
          · push_cast; ring
          · apply List.map_congr_left
            intro i _
            simp only [Function.comp_apply]
            push_cast
            ring
      · rw [if_neg hlt]
        have hk : k = 0 := by omega
        subst hk
        exact ⟨rfl, rfl, rfl⟩

/-- When every exchange attempt raises, _place_order performs exactly
maxRetries attempts with linear backoff sleeps 1, 2, ... between them and
returns a FAILED order. -/
theorem place_order_all_fail (exch : Exchange) (maxRetries : Nat) (symbol side : String)
    (quantity : ℚ) (h : ∀ n f, exch n ≠ Except.ok f) :
    (place_order exch maxRetries symbol side quantity).1.status = OrderStatus.FAILED ∧
    attemptsCount (place_order exch maxRetries symbol side quantity).2 = maxRetries ∧
    sleepTrace (place_order exch maxRetries symbol side quantity).2 =
      (List.range (maxRetries - 1)).map (fun i : Nat => 1 * ((i : ℚ) + 1)) := by
  have hmain := place_loop_all_fail exch maxRetries symbol side quantity h maxRetries 0 ""
    (by omega)
  refine ⟨hmain.1, hmain.2.1, ?_⟩
  rw [place_order] at *
  rw [hmain.2.2]
  apply List.map_congr_left
  intro i _
  push_cast
  ring

/-- If no exchange attempt can fill, execute_signal leaves the trade store
exactly as it was, on every code path. -/
theorem exec_store_unchanged_of_nofill (ctx : ExecCtx) (exch : Exchange) (store : Store)
    (signal : Signal) (h : ∀ n f, exch n ≠ Except.ok f) :
    (execute_signal ctx exch store signal).store = store := by
  have hst : ∀ sy si (q : ℚ),
      (place_order exch ctx.maxRetries sy si q).1.status = OrderStatus.FAILED :=
    fun sy si q => (place_order_all_fail exch ctx.maxRetries sy si q h).1
  have hne : ∀ sy si (q : ℚ),
      ¬ (place_order exch ctx.maxRetries sy si q).1.status = OrderStatus.FILLED := by
    intro sy si q hc
    rw [hst sy si q] at hc
    exact absurd hc (by decide)
  cases hsig : signal.signalType with
  | BUY =>
    simp only [execute_signal, hsig, spot_buy]
    cases hc : check_pre_trade ctx.risk ctx.cfgSymbols store signal.symbol "BUY"
        (if 0 < signal.quantity then signal.quantity
         else calculate_position_size ctx.pm signal.price) signal.price with
    | error e => rfl
    | ok p =>
      obtain ⟨b, r⟩ := p
      cases b
      · rfl
      · simp only [if_neg (hne _ _ _)]
  | SELL =>
    simp only [execute_signal, hsig, spot_sell]
    cases hp : get_position signal.symbol store with
    | none => rfl
    | some pos =>
      simp only []
      by_cases hq : sellQty signal pos ≤ 0
      · rw [if_pos hq]
      · rw [if_neg hq, if_neg (hne _ _ _)]
  | NONE => simp [execute_signal, hsig]
  | LONG => simp [execute_signal, hsig]
  | SHORT => simp [execute_signal, hsig]
  | CLOSE_LONG => simp [execute_signal, hsig]
  | CLOSE_SHORT => simp [execute_signal, hsig]

/-- C3: when every placement attempt raises a transient failure,
_place_order makes exactly maxRetries attempts, sleeping the linearly
increasing backoffs 1, 2, ... between consecutive attempts, and returns a
FAILED order; execute_signal then leaves the ledger unchanged. -/
theorem C3_retry_exhaustion (exch : Exchange) (maxRetries : Nat) (symbol side : String)
    (quantity : ℚ) (h : ∀ n, ∃ e, exch n = Except.error e) :
    (place_order exch maxRetries symbol side quantity).1.status = OrderStatus.FAILED ∧
    attemptsCount (place_order exch maxRetries symbol side quantity).2 = maxRetries ∧
    sleepTrace (place_order exch maxRetries symbol side quantity).2 =
      (List.range (maxRetries - 1)).map (fun i : Nat => 1 * ((i : ℚ) + 1)) ∧
    ∀ (ctx : ExecCtx) (store : Store) (signal : Signal),
      (execute_signal ctx exch store signal).store = store := by
  have hno : ∀ n f, exch n ≠ Except.ok f := by
    intro n f hc
    obtain ⟨e, he⟩ := h n
    rw [hc] at he
    exact Except.noConfusion he
  have hmain := place_order_all_fail exch maxRetries symbol side quantity hno
  exact ⟨hmain.1, hmain.2.1, hmain.2.2,
    fun ctx store signal => exec_store_unchanged_of_nofill ctx exch store signal hno⟩

/-- C3 witness: a persistently failing exchange with the default retry
budget of 3 makes 3 attempts, sleeps 1 then 2 seconds, returns FAILED,
and a BUY signal through it leaves a concrete ledger unchanged. -/
theorem C3_retry_exhaustion_witness :
    (place_order exchAlwaysErr 3 "BTCUSDT" "BUY" 1).1.status = OrderStatus.FAILED ∧
    attemptsCount (place_order exchAlwaysErr 3 "BTCUSDT" "BUY" 1).2 = 3 ∧
    sleepTrace (place_order exchAlwaysErr 3 "BTCUSDT" "BUY" 1).2 =
      (List.range 2).map (fun i : Nat => 1 * ((i : ℚ) + 1)) ∧
    (execute_signal ctxDefault exchAlwaysErr [trOpen]
        { sigSellBtc with signalType := SignalType.BUY }).store = [trOpen] := by
  have h := C3_retry_exhaustion exchAlwaysErr 3 "BTCUSDT" "BUY" 1
    (fun n => ⟨"timeout", rfl⟩)
  exact ⟨h.1, h.2.1, h.2.2.1, h.2.2.2 ctxDefault [trOpen] _⟩

/-- C8 counterexample: an exchange that rejects every attempt with a
business-logic message (insufficient funds) is still attempted 3 times by
_place_order with maxRetries 3 — not surfaced after one attempt. -/
theorem C8_counterexample :
    attemptsCount (place_order exchReject 3 "BTCUSDT" "BUY" 1).2 = 3 ∧
    attemptsCount (place_order exchReject 3 "BTCUSDT" "BUY" 1).2 ≠ 1 := by
  have h := place_order_all_fail exchReject 3 "BTCUSDT" "BUY" 1
    (fun n f hc => Except.noConfusion hc)
  refine ⟨h.2.1, ?_⟩
  rw [h.2.1]
  decide

/-- C8 amended: the executor does not classify placement exceptions — a
business-logic rejection raised on every attempt is retried exactly like
a transient failure, up to the configured maximum number of attempts,
after which the order is FAILED. -/
theorem C8_rejection_retried (msg : String) (maxRetries : Nat) (symbol side : String)
    (quantity : ℚ) :
    (place_order (fun _ => Except.error msg) maxRetries symbol side quantity).1.status =
      OrderStatus.FAILED ∧
    attemptsCount
      (place_order (fun _ => Except.error msg) maxRetries symbol side quantity).2 =
      maxRetries := by
  have h := place_order_all_fail (fun _ => Except.error msg) maxRetries symbol side
    quantity (fun n f hc => Except.noConfusion hc)
  exact ⟨h.1, h.2.1⟩

/-- A row read at an index that shares its id with a member row of a
table with distinct ids is that member row. -/
theorem row_eq_of_id_nodup (store : Store) (hnd : (store.map Trade.id).Nodup)
    {i : Nat} {t t0 : Trade} (hti : store[i]? = some t) (ht0 : t0 ∈ store)
    (hid : t.id = t0.id) : t = t0 := by
  obtain ⟨j, hj⟩ := List.get?_of_mem ht0
  rw [List.get?_eq_getElem?] at hj
  have hi : i < store.length := (List.getElem?_eq_some_iff.mp hti).1
  have h1 : (store.map Trade.id)[i]? = some t.id := by
    rw [List.getElem?_map, hti]; rfl
  have h2 : (store.map Trade.id)[j]? = some t0.id := by
    rw [List.getElem?_map, hj]; rfl
  have hij : i = j := by
    apply List.getElem?_inj (by simpa using hi) hnd
    rw [h1, h2, hid]
  rw [hij] at hti
  rw [hti] at hj
  exact Option.some.inj hj

/-- The head of the open-trades query is a member of the table and has
status OPEN. -/
theorem open_head_props (symbol : String) (store : Store) {t0 : Trade}
    {rest : List Trade} (h : get_open_trades symbol store = t0 :: rest) :
    t0 ∈ store ∧ t0.status = "OPEN" := by
  have hmem : t0 ∈ get_open_trades symbol store := by
    rw [h]; exact List.mem_cons_self t0 rest
  have h1 := List.mem_of_mem_filter hmem
  have h2 := List.of_mem_filter hmem
  simp only [Bool.and_eq_true, beq_iff_eq] at h2
  exact ⟨h1, h2.2⟩

/-- The store after execute_signal is the old store, the old store with one
appended row, or the old store with the head open row of the signal's
symbol closed in place. -/
theorem exec_store_cases (ctx : ExecCtx) (exch : Exchange) (store : Store)
    (signal : Signal) :
    (execute_signal ctx exch store signal).store = store ∨
    (∃ t, (execute_signal ctx exch store signal).store = store ++ [t]) ∨
    (∃ (t0 : Trade) (rest : List Trade) (p pnl : ℚ),
      get_open_trades signal.symbol store = t0 :: rest ∧
      (execute_signal ctx exch store signal).store =
        update_trade_close store (t0.id.getD 0) p ctx.now pnl) := by
  cases hsig : signal.signalType with
  | BUY =>
    simp only [execute_signal, hsig, spot_buy]
    cases hc : check_pre_trade ctx.risk ctx.cfgSymbols store signal.symbol "BUY"
        (if 0 < signal.quantity then signal.quantity
         else calculate_position_size ctx.pm signal.price) signal.price with
    | error e => left; rfl
    | ok pr =>
      obtain ⟨b, r⟩ := pr
      cases b
      · left; rfl
      · by_cases hfill : (place_order exch ctx.maxRetries signal.symbol "BUY"
            (if 0 < signal.quantity then signal.quantity
             else calculate_position_size ctx.pm signal.price)).1.status =
            OrderStatus.FILLED
        · rw [if_pos hfill]
          right; left
          exact ⟨_, rfl⟩
        · rw [if_neg hfill]
          left; rfl
  | SELL =>
    simp only [execute_signal, hsig, spot_sell]
    cases hp : get_position signal.symbol store with
    | none => left; rfl
    | some pos =>
      simp only []
      by_cases hq : sellQty signal pos ≤ 0
      · rw [if_pos hq]; left; rfl
      · rw [if_neg hq]
        by_cases hfill : (place_order exch ctx.maxRetries signal.symbol "SELL"
            (sellQty signal pos)).1.status = OrderStatus.FILLED
        · rw [if_pos hfill]
          cases hot : get_open_trades signal.symbol store with
          | nil => left; rfl
          | cons t0 rest =>
            right; right
            exact ⟨t0, rest, _, _, rfl, rfl⟩
        · rw [if_neg hfill]; left; rfl
  | NONE => left; simp [execute_signal, hsig]
  | LONG => left; simp [execute_signal, hsig]
  | SHORT => left; simp [execute_signal, hsig]
  | CLOSE_LONG => left; simp [execute_signal, hsig]
  | CLOSE_SHORT => left; simp [execute_signal, hsig]

/-- C2: an order placement that cannot reach FILLED leaves the trade store
untouched on every path of execute_signal; and on a well-formed store
(ids present and distinct) every row whose status the executor changes
goes from OPEN to CLOSED, never the other way. -/
theorem C2_ledger_one_directional :
    (∀ (ctx : ExecCtx) (exch : Exchange) (store : Store) (signal : Signal),
        (∀ n f, exch n ≠ Except.ok f) →
        (execute_signal ctx exch store signal).store = store) ∧
    (∀ (ctx : ExecCtx) (exch : Exchange) (store : Store) (signal : Signal),
        (∀ t ∈ store, t.id.isSome) → (store.map Trade.id).Nodup →
        ∀ (i : Nat) (t tB : Trade), store[i]? = some t →
          (execute_signal ctx exch store signal).store[i]? = some tB →
          t.status ≠ tB.status → t.status = "OPEN" ∧ tB.status = "CLOSED") := by
  constructor
  · exact fun ctx exch store signal h =>
      exec_store_unchanged_of_nofill ctx exch store signal h
  · intro ctx exch store signal hid hnd i t tB hti htB hst
    rcases exec_store_cases ctx exch store signal with hsame | ⟨x, happ⟩ |
      ⟨t0, rest, p, pnl, hot, hupd⟩
    · rw [hsame, hti] at htB
      exact absurd (Option.some.inj htB) (fun he => hst (by rw [he]))
    · have hi : i < store.length := (List.getElem?_eq_some_iff.mp hti).1
      rw [happ, List.getElem?_append_left hi, hti] at htB
      exact absurd (Option.some.inj htB) (fun he => hst (by rw [he]))
    · obtain ⟨h0mem, h0open⟩ := open_head_props signal.symbol store hot
      obtain ⟨k, hk⟩ := Option.isSome_iff_exists.mp (hid t0 h0mem)
      rw [hupd] at htB
      simp only [update_trade_close, List.getElem?_map, hti, Option.map_some'] at htB
      by_cases hmatch : t.id = some (t0.id.getD 0)
      · rw [if_pos hmatch] at htB
        have htid : t.id = t0.id := by
          rw [hmatch, hk]
          simp [hk]
        have hteq : t = t0 := row_eq_of_id_nodup store hnd hti h0mem htid
        refine ⟨by rw [hteq]; exact h0open, ?_⟩
        have hB := Option.some.inj htB
        rw [← hB]
      · rw [if_neg hmatch] at htB
        exact absurd (Option.some.inj htB) (fun he => hst (by rw [he]))

/-- C2 witness: a persistently rejecting exchange leaves a concrete
one-row ledger unchanged for a BUY signal. -/
theorem C2_ledger_one_directional_witness :
    (execute_signal ctxDefault exchReject [trOpen]
        { sigSellBtc with signalType := SignalType.BUY }).store = [trOpen] :=
  C2_ledger_one_directional.1 ctxDefault exchReject [trOpen]
    { sigSellBtc with signalType := SignalType.BUY }
    (fun n f hc => Except.noConfusion hc)

/-- C9: a SELL with no open position is dropped with no order attempt and
no ledger change; with an open position the sold quantity is the signal's
explicit quantity when positive else the full position, and a filled
order closes the symbol's head OPEN row with
pnl = (fill price - entry price) * min(sell qty, row qty); in particular a
position of quantity Q entered at P and sold in full at P2 ends CLOSED
with pnl = (P2 - P) * Q exactly. -/
theorem C9_sell_path :
    (∀ (ctx : ExecCtx) (exch : Exchange) (store : Store) (signal : Signal),
        signal.signalType = SignalType.SELL →
        get_position signal.symbol store = none →
        execute_signal ctx exch store signal = ⟨Except.ok none, store, []⟩) ∧
    (∀ (ctx : ExecCtx) (exch : Exchange) (store : Store) (signal : Signal)
        (pos : PositionView),
        signal.signalType = SignalType.SELL →
        get_position signal.symbol store = some pos →
        0 < sellQty signal pos →
        (place_order exch ctx.maxRetries signal.symbol "SELL"
            (sellQty signal pos)).1.status = OrderStatus.FILLED →
        ∃ (t0 : Trade) (rest : List Trade),
          get_open_trades signal.symbol store = t0 :: rest ∧
          (execute_signal ctx exch store signal).store =
            update_trade_close store (t0.id.getD 0)
              (place_order exch ctx.maxRetries signal.symbol "SELL"
                (sellQty signal pos)).1.avgPrice ctx.now
              (((place_order exch ctx.maxRetries signal.symbol "SELL"
                  (sellQty signal pos)).1.avgPrice - t0.entryPrice) *
                min (sellQty signal pos) t0.quantity)) ∧
    (∀ (ctx : ExecCtx) (exch : Exchange) (Q P P2 : ℚ) (sym strat : String) (f : Fill),
        0 < Q → 0 < ctx.maxRetries → exch 0 = Except.ok f → f.average = some P2 →
        (execute_signal ctx exch
          [{ id := some 1, symbol := sym, side := "BUY", entryPrice := P,
             quantity := Q, status := "OPEN" }]
          { strategyName := strat, signalType := SignalType.SELL, symbol := sym,
            price := P2, quantity := 0 }).store =
        [{ id := some 1, symbol := sym, side := "BUY", entryPrice := P,
           quantity := Q, exitPrice := P2, exitTime := some ctx.now,
           pnl := (P2 - P) * Q, status := "CLOSED" }]) := by
  refine ⟨?_, ?_, ?_⟩
  · intro ctx exch store signal hsell hp
    simp only [execute_signal, hsell, spot_sell, hp]
  · intro ctx exch store signal pos hsell hp hq hfill
    simp only [execute_signal, hsell, spot_sell, hp]
    rw [if_neg (not_le.mpr hq), if_pos hfill]
    cases hot : get_open_trades signal.symbol store with
    | nil =>
      rw [get_position, hot] at hp
      exact Option.noConfusion hp
    | cons t0 rest => exact ⟨t0, rest, rfl, rfl⟩
  · intro ctx exch Q P P2 sym strat f hQ hmr hx0 havg
    obtain ⟨k, hk⟩ := Nat.exists_eq_add_of_lt hmr
    have hopen : get_open_trades sym
        [{ id := some 1, symbol := sym, side := "BUY", entryPrice := P,
           quantity := Q, status := "OPEN" }] =
        [{ id := some 1, symbol := sym, side := "BUY", entryPrice := P,
           quantity := Q, status := "OPEN" }] := by
      simp [get_open_trades]
    have hpo : place_order exch ctx.maxRetries sym "SELL" Q =
        ({ orderId := some (strOfOptId f.orderId), symbol := sym, side := "SELL",
           quantity := Q, status := OrderStatus.FILLED,
           filledQuantity := f.filled.getD Q, avgPrice := f.average.getD 0 },
         [ExecEffect.attemptOrder sym "SELL" Q 0]) := by
      rw [place_order, hk]
      simp only [Nat.zero_add, place_order_loop, hx0]
    have hsq : sellQty
        { strategyName := strat, signalType := SignalType.SELL, symbol := sym,
          price := P2, quantity := 0 }
        (⟨sym, Q, P⟩ : PositionView) = Q := by
      simp [sellQty]
    have hQn : ¬ (Q ≤ 0) := not_le.mpr hQ
    simp only [execute_signal, spot_sell, get_position, hopen, hsq, hQn, ite_false,
      if_false, hpo, havg, Option.getD_some, eq_self_iff_true, if_true,
      update_trade_close, List.map_cons, List.map_nil, min_self]

/-- C9 witness: the round-trip conjunct applied at Q = 2, P = 100,
P2 = 110 on a concrete exchange. -/
theorem C9_sell_path_witness :
    (execute_signal ctxDefault exchFill110
      [{ id := some 1, symbol := "BTCUSDT", side := "BUY", entryPrice := 100,
         quantity := 2, status := "OPEN" }]
      { strategyName := "s", signalType := SignalType.SELL, symbol := "BTCUSDT",
        price := 110, quantity := 0 }).store =
    [{ id := some 1, symbol := "BTCUSDT", side := "BUY", entryPrice := 100,
       quantity := 2, exitPrice := 110, exitTime := some ctxDefault.now,
       pnl := (110 - 100) * 2, status := "CLOSED" }] :=
  C9_sell_path.2.2 ctxDefault exchFill110 2 100 110 "BTCUSDT" "s"
    { orderId := some "9", filled := none, average := some 110 }
    (by norm_num) (by norm_num [ctxDefault]) rfl rfl

/-- The drawdown and BUY-concurrency checks of the code equal the last two
checks of the specification's priority list, provided the open-position
count respects the configured concurrency limit. -/
theorem check_after_daily_eq_tail (s : RiskState) (cfg : List String) (store : Store)
    (symbol side : String)
    (hinv : (get_all_active_positions cfg store).length ≤ s.maxActiveTrades) :
    check_after_daily s cfg store symbol side =
      firstFailing
        [ (decide (s.maxDrawdownPercent ≤ s.currentDrawdown),
            DenyReason.drawdown s.currentDrawdown),
          (decide (side.toUpper = "BUY") &&
              !(decide (symbol ∈ get_all_active_positions cfg store)) &&
              decide ((get_all_active_positions cfg store).length = s.maxActiveTrades),
            DenyReason.concurrency s.maxActiveTrades) ] := by
  by_cases hdd : s.maxDrawdownPercent ≤ s.currentDrawdown
  · simp [check_after_daily, firstFailing, hdd]
  · by_cases hb : side.toUpper = "BUY"
    · by_cases hm : symbol ∈ get_all_active_positions cfg store
      · simp [check_after_daily, firstFailing, hdd, hb, hm]
      · by_cases hl : s.maxActiveTrades ≤ (get_all_active_positions cfg store).length
        · have he : (get_all_active_positions cfg store).length = s.maxActiveTrades :=
            le_antisymm hinv hl
          simp [check_after_daily, firstFailing, hdd, hb, hm, hl, he]
        · have hne2 : ¬ ((get_all_active_positions cfg store).length = s.maxActiveTrades) := by
            omega
          simp [check_after_daily, firstFailing, hdd, hb, hm, hl, hne2]
    · simp [check_after_daily, firstFailing, hdd, hb]

/-- C1: under a positive configured daily-loss cap, on any state where the
daily-loss division cannot fault, and over a store respecting the
documented invariant that the open-position symbol count never exceeds
the concurrency limit, check_pre_trade returns exactly the first failing
check of the specification's priority list — daily loss at its cap, then
drawdown at its cap, then (BUY only) a new symbol while the open-position
count equals the concurrency limit — and allowed when none fails. -/
theorem C1_pre_trade_priority (s : RiskState) (cfg : List String) (store : Store)
    (symbol side : String) (qty price : ℚ)
    (hmax : 0 < s.maxDailyLossPercent)
    (hsafe : 0 ≤ s.dailyPnl ∨ s.dailyStartBalance ≠ 0)
    (hinv : (get_all_active_positions cfg store).length ≤ s.maxActiveTrades) :
    check_pre_trade s cfg store symbol side qty price =
      Except.ok
        (spec_check_pre_trade s (get_all_active_positions cfg store) symbol side) := by
  have h23 := check_after_daily_eq_tail s cfg store symbol side hinv
  by_cases hp : s.dailyPnl < 0
  · have hb0 : s.dailyStartBalance ≠ 0 := by
      rcases hsafe with h0 | h0
      · exact absurd hp (not_lt.mpr h0)
      · exact h0
    have hspecdl : dailyLossPercentSpec s = |s.dailyPnl| / s.dailyStartBalance * 100 := by
      simp [dailyLossPercentSpec, hp]
    simp only [check_pre_trade, if_pos hp, if_neg hb0]
    by_cases hd : s.maxDailyLossPercent ≤ |s.dailyPnl| / s.dailyStartBalance * 100
    · rw [if_pos hd]
      simp [spec_check_pre_trade, specPreTradeChecks, firstFailing, hspecdl, hd]
    · rw [if_neg hd]
      rw [h23]
      simp [spec_check_pre_trade, specPreTradeChecks, firstFailing, hspecdl, hd]
  · have hspecdl : dailyLossPercentSpec s = 0 := by
      simp [dailyLossPercentSpec, hp]
    have hd : ¬ (s.maxDailyLossPercent ≤ 0) := not_le.mpr hmax
    simp only [check_pre_trade, if_neg hp]
    rw [h23]
    simp [spec_check_pre_trade, specPreTradeChecks, firstFailing, hspecdl, hd]

/-- C1 witness: the default limits with three open positions deny a BUY of
a fourth symbol with the concurrency reason, matching the specification
replay. -/
theorem C1_pre_trade_priority_witness :
    check_pre_trade rsDefault ["A", "B", "C"]
      [{ id := some 1, symbol := "A", side := "BUY", entryPrice := 1, quantity := 1,
         status := "OPEN" },
       { id := some 2, symbol := "B", side := "BUY", entryPrice := 1, quantity := 1,
         status := "OPEN" },
       { id := some 3, symbol := "C", side := "BUY", entryPrice := 1, quantity := 1,
         status := "OPEN" }] "D" "BUY" 1 100 =
      Except.ok
        (spec_check_pre_trade rsDefault
          (get_all_active_positions ["A", "B", "C"]
            [{ id := some 1, symbol := "A", side := "BUY", entryPrice := 1, quantity := 1,
               status := "OPEN" },
             { id := some 2, symbol := "B", side := "BUY", entryPrice := 1, quantity := 1,
               status := "OPEN" },
             { id := some 3, symbol := "C", side := "BUY", entryPrice := 1, quantity := 1,
               status := "OPEN" }]) "D" "BUY") := by
  apply C1_pre_trade_priority
  · norm_num [rsDefault]
  · left
    norm_num [rsDefault]
  · simp [get_all_active_positions, get_position, get_open_trades, rsDefault]

end Systrader
